import Mathlib

/-!
Verification of the order-placement and order-cancellation subsystem of the
gdaxcli repository (file `gdaxcli/gdax_utils.py`), as a shallow embedding.

Modelling conventions:

* Python floats are modelled as exact fractions (`PyFloat`): an integer
  numerator with a positive natural denominator, without normalization, so
  that every operation reduces inside the Lean kernel.  All numbers the
  program handles come from decimal strings, so this is exact; IEEE-754
  rounding artifacts are outside the model.  `PyFloat.toRat` gives the value
  semantics, and `blt_iff`/`ble_iff` connect the executable comparisons to
  the ordered field ℚ.
* `float(s)` on a plain decimal numeral (optional sign, digits, one optional
  dot) is modelled by `pyFloat`; exotic accepted forms (exponents, `inf`,
  whitespace) are outside the model, and no claim depends on them.
* The code is Python 2 (`raw_input`, `has_key`).  `pyLt` models CPython 2
  cross-type `<`: a number compares less than any string, which matters for
  the funds check of sell orders where `req` is the raw size string.
* Network collaborators (`get_products`, `get_product_ticker`,
  `get_accounts`, `get_orders`, `get_order`) are modelled as environment
  records holding their responses; submission calls (`buy`, `sell`,
  `cancel_order`) and user-visible prints become entries of an event trace.
  Colorizing and table formatting are presentation (out of scope per the
  spec) and are abstracted into the event constructors.
* Exceptions are modelled by `Except PyExc`; an operation returns the trace
  of events it emitted together with an optional uncaught exception.
-/

/-- Numeric value of a list of decimal digit characters, most significant
first, as in repeated `10*n + digit` accumulation. -/
def natOfDigits (l : List Char) : Nat :=
  l.foldl (fun n c => 10 * n + (c.toNat - 48)) 0

/-- Exact fraction model of a Python float: numerator, positive denominator,
no normalization (so that kernel reduction never needs `Nat.gcd`). -/
structure PyFloat where
  num : Int
  den : Nat
  den_pos : 0 < den

instance : DecidableEq PyFloat := fun a b =>
  if h : a.num = b.num ∧ a.den = b.den then
    isTrue (by cases a; cases b; simp_all)
  else
    isFalse (by intro he; cases he; simp_all)

instance (n : Nat) : OfNat PyFloat n :=
  ⟨⟨n, 1, Nat.one_pos⟩⟩

instance : Neg PyFloat :=
  ⟨fun a => ⟨-a.num, a.den, a.den_pos⟩⟩

instance : Add PyFloat :=
  ⟨fun a b => ⟨a.num * b.den + b.num * a.den, a.den * b.den,
    Nat.mul_pos a.den_pos b.den_pos⟩⟩

instance : Mul PyFloat :=
  ⟨fun a b => ⟨a.num * b.num, a.den * b.den,
    Nat.mul_pos a.den_pos b.den_pos⟩⟩

instance : Sub PyFloat :=
  ⟨fun a b => a + -b⟩

/-- Value of a `PyFloat` as a rational number. -/
def PyFloat.toRat (a : PyFloat) : ℚ :=
  (a.num : ℚ) / (a.den : ℚ)

/-- Executable strict comparison of `PyFloat`s by cross multiplication. -/
def PyFloat.blt (a b : PyFloat) : Bool :=
  a.num * (b.den : Int) < b.num * (a.den : Int)

/-- Executable non-strict comparison of `PyFloat`s by cross multiplication. -/
def PyFloat.ble (a b : PyFloat) : Bool :=
  a.num * (b.den : Int) ≤ b.num * (a.den : Int)

instance {ε α : Type} [DecidableEq ε] [DecidableEq α] : DecidableEq (Except ε α) := fun x y =>
  match x, y with
  | .error a, .error b =>
    if h : a = b then isTrue (h ▸ rfl) else isFalse (fun he => h (by injection he))
  | .ok a, .ok b =>
    if h : a = b then isTrue (h ▸ rfl) else isFalse (fun he => h (by injection he))
  | .error _, .ok _ => isFalse (fun he => by injection he)
  | .ok _, .error _ => isFalse (fun he => by injection he)

/-- Exceptions the embedded code can raise. -/
inductive PyExc
  | assertionError
  | valueError
  | typeError
  | indexError
  | keyError
  | nameError
  | invalidOrderError
  | notImplementedError
  deriving DecidableEq

/-- A Python value that is either a float, a string, or `None`; used where
the source rebinds one variable to values of different runtime types. -/
inductive PyVal
  | pfloat (q : PyFloat)
  | pstr (s : String)
  | pnone
  deriving DecidableEq

/-- CPython 2 comparison `a < v` between a float `a` and an arbitrary value:
numbers compare less than strings (cross-type ordering by type name), and
`None` is smaller than every number. -/
def pyLt (a : PyFloat) : PyVal → Bool
  | .pfloat b => a.blt b
  | .pstr _ => true
  | .pnone => false

/-- Parser behind `float(s)` for an unsigned plain decimal numeral:
digits with one optional dot, at least one digit overall. -/
def pyFloatCore (cs : List Char) : Option PyFloat :=
  let intPart := cs.takeWhile Char.isDigit
  let rest := cs.dropWhile Char.isDigit
  match rest with
  | [] => if intPart.isEmpty then none else some ⟨natOfDigits intPart, 1, Nat.one_pos⟩
  | '.' :: rest2 =>
    let fracPart := rest2.takeWhile Char.isDigit
    let rest3 := rest2.dropWhile Char.isDigit
    if rest3.isEmpty && !(intPart.isEmpty && fracPart.isEmpty) then
      some ⟨natOfDigits (intPart ++ fracPart), 10 ^ fracPart.length,
        Nat.pos_pow_of_pos _ (by decide)⟩
    else none
  | _ => none

/-- Models Python `float(s)` on plain decimal numerals with an optional
leading sign.  Exponent notation, `inf`/`nan` and surrounding whitespace are
outside the model. -/
def pyFloat (s : String) : Option PyFloat :=
  match s.data with
  | '+' :: cs => pyFloatCore cs
  | '-' :: cs => (pyFloatCore cs).map Neg.neg
  | _ => pyFloatCore s.data

/-- Models `float(s)` as an expression that raises `ValueError` on a
malformed literal. -/
def pyFloatE (s : String) : Except PyExc PyFloat :=
  match pyFloat s with
  | none => .error .valueError
  | some q => .ok q

/-- Conversion applied where the source calls `float(price)` on a variable
that holds a float, a string, or `None` depending on the branch taken. -/
def pyFloatOf : PyVal → Except PyExc PyFloat
  | .pfloat q => .ok q
  | .pstr s => pyFloatE s
  | .pnone => .error .typeError

/-- The 26 lowercase/uppercase ASCII letter pairs used by the model of
`str.upper`. -/
def upperPairs : List (Char × Char) :=
  [('a', 'A'), ('b', 'B'), ('c', 'C'), ('d', 'D'), ('e', 'E'), ('f', 'F'),
   ('g', 'G'), ('h', 'H'), ('i', 'I'), ('j', 'J'), ('k', 'K'), ('l', 'L'),
   ('m', 'M'), ('n', 'N'), ('o', 'O'), ('p', 'P'), ('q', 'Q'), ('r', 'R'),
   ('s', 'S'), ('t', 'T'), ('u', 'U'), ('v', 'V'), ('w', 'W'), ('x', 'X'),
   ('y', 'Y'), ('z', 'Z')]

/-- Uppercase one character (ASCII; the product identifiers the program
handles are ASCII). -/
def pyCharUpper (c : Char) : Char :=
  ((upperPairs.find? (fun p => p.1 = c)).map Prod.snd).getD c

/-- Models Python `s.upper()` on ASCII strings. -/
def pyUpper (s : String) : String :=
  ⟨s.data.map pyCharUpper⟩

/-- Scan for the first dot, as in the loop of `Client._truncate`: on the
first `'.'` at index `i` the cut position is `i + digits + 1`; with no dot
the whole string is kept (`none`). -/
def truncEnd (digits : Nat) : List Char → Option Nat
  | [] => none
  | c :: cs =>
    if c = '.' then some (digits + 1) else (truncEnd digits cs).map Nat.succ

/-- Models `Client._truncate`: keep at most `digits` characters after the
first dot, discarding the rest without rounding.  With no dot the string is
returned unchanged. -/
def pyTruncate (s : String) (digits : Nat) : String :=
  match truncEnd digits s.data with
  | some e => ⟨s.data.take e⟩
  | none => s

/-- Models the `'%.<digits>f'` fixed-point formatting used by the source as
an intermediate representation: round the value at `digits` fractional
digits (ties away from the kernel-stuck parts: plain half-up on the exact
fraction; no claim depends on tie behavior) and print with exactly `digits`
digits after the dot. -/
def formatFixed (digits : Nat) (q : PyFloat) : String :=
  let n : Int := (2 * q.num * 10 ^ digits + q.den).fdiv (2 * q.den)
  let m : Nat := n.natAbs
  let intDigits := Nat.repr (m / 10 ^ digits)
  let fracRaw := Nat.repr (m % 10 ^ digits)
  let fracDigits := (⟨List.replicate (digits - fracRaw.length) '0'⟩ : String) ++ fracRaw
  (if n < 0 then "-" else "") ++ intDigits ++ "." ++ fracDigits

/-- Accumulating splitter behind `pySplit`. -/
def pySplitAux (sep : Char) : List Char → List Char → List String
  | [], acc => [⟨acc.reverse⟩]
  | c :: cs, acc =>
    if c = sep then ⟨acc.reverse⟩ :: pySplitAux sep cs []
    else pySplitAux sep cs (c :: acc)

/-- Models Python `s.split(sep)` for a one-character separator (empty pieces
are kept, as in Python). -/
def pySplit (sep : Char) (s : String) : List String :=
  pySplitAux sep s.data []

/-- Models `s.startswith(pre)`. -/
def strStarts (pre s : String) : Bool :=
  pre.data.isPrefixOf s.data

/-- The keyword-argument dictionary the source builds for `self._client.buy`
and `self._client.sell`: the `price` entry is present exactly for limit
orders. -/
structure Kwargs where
  product_id : String
  type : String
  side : String
  size : String
  price : Option String
  deriving DecidableEq

/-- One account row of the `get_accounts()` response: currency code and the
`available` amount as the decimal string the exchange returns. -/
structure Account where
  currency : String
  available : String
  deriving DecidableEq

/-- A full order record as returned by `get_order`/`get_orders`, with the
fields `Client._parse_order` reads.  Numeric fields are kept as the strings
the exchange returns, as in the source. -/
structure OrderRecord where
  id : String
  product_id : String
  side : String
  type : String
  price : String
  size : String
  filled_size : String
  fill_fees : String
  status : String
  time_in_force : String
  settled : Bool
  stp : String
  created_at : String
  deriving DecidableEq

/-- The row dictionary built by `Client._parse_order` (colorizing of the
side/status/fee cells is presentation and dropped). -/
structure ParsedOrder where
  id : String
  product_id : String
  side : String
  type : String
  price : PyFloat
  size : PyFloat
  size_usd : PyFloat
  filled_size : String
  fill_fees : PyVal
  status : String
  time_in_force : String
  settled : String
  stp : String
  created_at : String
  deriving DecidableEq

/-- Observable effects of a run: user-visible prints (abstracted from their
exact formatting) and calls into the exchange collaborator. -/
inductive Event
  | msgNotEnoughFunds (req : PyVal) (den : String) (avail : PyFloat)
  | msgPlacing (order_type side size product : String) (price : PyVal) (total : PyFloat)
  | prompt (message : String)
  | msgEnterYorY
  | msgDidNothing
  | buyCall (kwargs : Kwargs)
  | sellCall (kwargs : Kwargs)
  | msgNoMatch
  | msgTooShort
  | printPayload
  | renderOrder (po : ParsedOrder)
  | cancelCall (id : String)
  deriving DecidableEq

/-- Whether an event is a buy or sell submission to the exchange. -/
def isSubmit : Event → Bool
  | .buyCall _ => true
  | .sellCall _ => true
  | _ => false

/-- Models the free function `confirm`: prompt the operator (`raw_input`),
print a hint on empty input, and accept exactly `y` or `Y`.  Returns the
events it printed and the boolean result. -/
def confirm (message response : String) : List Event × Bool :=
  (Event.prompt message :: (if response = "" then [Event.msgEnterYorY] else []),
   response = "y" || response = "Y")

/-- Models `Client.bal`: the comprehension over `get_accounts()` filtered by
currency, indexed at 0 (an `IndexError` if the currency has no account) and
passed through `float`. -/
def bal (accounts : List Account) (cur : String) : Except PyExc PyFloat :=
  match (accounts.filter (fun x => x.currency == cur)).map Account.available with
  | [] => .error .indexError
  | s :: _ => pyFloatE s

/-- Responses of the external collaborators consumed by one `Client.order`
invocation: the tradable product identifiers (`get_products`), the current
ticker price already passed through `float` (`get_product_ticker`), the
account rows (`get_accounts`), and the operator's reply to the confirmation
prompt (`raw_input`). -/
structure OrderEnv where
  product_ids : List String
  current_price : PyFloat
  accounts : List Account
  response : String

/-- Models `Client._check_valid_order`: the `assert` statements raise
`AssertionError`, `float(size)` raises `ValueError` on a malformed size, and
`price[0]` raises `TypeError` on `None` or `IndexError` on an empty
string. -/
def check_valid_order (product_ids : List String) (order_type side product size : String)
    (price : Option String) : Except PyExc Unit :=
  if order_type ∈ (["market", "limit", "stop"] : List String) then
    if side ∈ (["buy", "sell"] : List String) then
      if pyUpper product ∈ product_ids then
        match pyFloat size with
        | none => .error .valueError
        | some _ =>
          if order_type ≠ "market" then
            match price with
            | none => .error .typeError
            | some p =>
              match p.data with
              | [] => .error .indexError
              | c :: _ =>
                if c.isDigit || c = '-' || c = '+' then .ok () else .error .assertionError
          else .ok ()
      else .error .assertionError
    else .error .assertionError
  else .error .assertionError

/-- Models `Client._parse_price`: an absolute price (leading digit) is
truncated to 2 fractional digits with the offset taken from the full
untruncated value; otherwise the tail is parsed as a relative amount whose
sign follows the leading character, and the shifted price goes through a
6-fractional-digit fixed-point representation before truncation. -/
def parse_price (price : String) (current_price : PyFloat) :
    Except PyExc (String × PyFloat) :=
  match price.data with
  | [] => .error .indexError
  | c :: rest =>
    if c.isDigit then
      match pyFloat price with
      | none => .error .valueError
      | some q => .ok (pyTruncate price 2, q - current_price)
    else
      match pyFloat ⟨rest⟩ with
      | none => .error .valueError
      | some a0 =>
        let amount := if c = '-' then -a0 else a0
        let abs_price := current_price + amount
        .ok (pyTruncate (formatFixed 6 abs_price) 2, amount)

/-- The `order_type` branch of `Client.order` (source lines 289-308): it
yields the rebound `price` variable (a float for market orders, the
truncated string for limit orders) together with the `price` entry added to
the kwargs for limit orders, or raises.  The final fall-through (no branch
taken) is unreachable after validation but kept: `price` stays whatever was
passed in. -/
def orderPriceBranch (current_price : PyFloat) (order_type side : String)
    (price : Option String) : Except PyExc (PyVal × Option String) :=
  if order_type = "market" then .ok (.pfloat current_price, none)
  else if order_type = "limit" then
    match price with
    | none => .error .typeError
    | some p =>
      match parse_price p current_price with
      | .error e => .error e
      | .ok (abs_price, amount) =>
        if side = "buy" && PyFloat.ble 0 amount then .error .invalidOrderError
        else if side = "sell" && PyFloat.ble amount 0 then .error .invalidOrderError
        else .ok (.pstr abs_price, some abs_price)
  else if order_type = "stop" then .error .notImplementedError
  else .ok ((match price with | none => .pnone | some p => .pstr p), none)

/-- The submission dispatch at the end of `Client.order`: buy for side
`buy`, sell otherwise. -/
def submitEvent (side : String) (kwargs : Kwargs) : Event :=
  if side = "buy" then .buyCall kwargs else .sellCall kwargs

/-- Models `Client.order`: validate, fetch the ticker, branch on the order
type, build the kwargs, compute the total, check funds (`dbal < req` under
CPython 2 cross-type comparison), preview, confirm, submit.  The result is
the trace of events together with an uncaught exception if one is raised;
every raise in this pipeline happens before the first print, so an error
always comes with an empty trace.  The `diff` cosmetic string of the preview
repeats the `float(abs_price)` parse done for the total and is absorbed into
it. -/
def order (env : OrderEnv) (order_type side product0 size : String)
    (price : Option String) (skip_confirmation : Bool) :
    List Event × Option PyExc :=
  let product := pyUpper product0
  match check_valid_order env.product_ids order_type side product size price with
  | .error e => ([], some e)
  | .ok _ =>
    match orderPriceBranch env.current_price order_type side price with
    | .error e => ([], some e)
    | .ok (priceV, absOpt) =>
      let kwargs : Kwargs := ⟨product, order_type, side, size, absOpt⟩
      match pyFloatE size with
      | .error e => ([], some e)
      | .ok szq =>
        match pyFloatOf priceV with
        | .error e => ([], some e)
        | .ok prq =>
          let total := szq * prq
          let req : PyVal := if side = "buy" then .pfloat total else .pstr size
          match (pySplit '-' product)[if side = "buy" then 1 else 0]? with
          | none => ([], some .indexError)
          | some den =>
            match bal env.accounts den with
            | .error e => ([], some e)
            | .ok dbal =>
              if pyLt dbal req then ([.msgNotEnoughFunds req den dbal], none)
              else
                let preview := Event.msgPlacing order_type side size product priceV total
                if skip_confirmation then ([preview, submitEvent side kwargs], none)
                else
                  let c := confirm "Proceed?" env.response
                  if c.2 then (preview :: c.1 ++ [submitEvent side kwargs], none)
                  else (preview :: c.1 ++ [Event.msgDidNothing], none)

/-- Models `is_str_zero`: every digit character of the string is `0`. -/
def is_str_zero (s : String) : Bool :=
  s.data.all (fun c => !c.isDigit || c = '0')

/-- The dictionary returned by `get_order`, as the two shapes the program
distinguishes: an optional `message` key (an exchange-side error payload)
and, when it is a real order, the record fields.  The order fields are
present together or absent together; accessing them on a payload that lacks
them raises `KeyError`. -/
structure GetOrderResult where
  message : Option String
  record : Option OrderRecord

/-- Models `Client._parse_order`: parse size and price with `float`, derive
`size_usd`, keep the first 6 characters of the identifier, and render the
fee cell as a formatted string when nonzero (colors dropped).  A missing
field raises `KeyError`; malformed numerics raise `ValueError`. -/
def parse_order (o : GetOrderResult) : Except PyExc ParsedOrder :=
  match o.record with
  | none => .error .keyError
  | some r => do
    let size ← pyFloatE r.size
    let price ← pyFloatE r.price
    let ffq ← pyFloatE r.fill_fees
    .ok
      { id := ⟨r.id.data.take 6⟩
        product_id := r.product_id
        side := r.side
        type := r.type
        price := price
        size := size
        size_usd := size * price
        filled_size := r.filled_size
        fill_fees := if is_str_zero r.fill_fees then .pfloat ffq
          else .pstr (formatFixed 4 ffq)
        status := r.status
        time_in_force := r.time_in_force
        settled := if r.settled then "yes" else "no"
        stp := r.stp
        created_at := r.created_at }

/-- Responses of the collaborators consumed by one `Client.order_cancel`
invocation: the flattened order identifiers from the `get_orders` pages, the
`get_order` response for each identifier, and the operator's reply to the
confirmation prompt. -/
structure CancelEnv where
  order_ids : List String
  lookup : String → GetOrderResult
  response : String

/-- Models `Client.order_cancel`: list open orders, filter those whose
identifier starts with the given characters, abort with a message on zero or
several matches, otherwise fetch the match, print the payload when it has a
`message` key, render the parsed record, and on confirmation call
`cancel_order` on `order_id` — which in the source is the leaked loop
variable of the listing loop, i.e. the LAST listed identifier, not the
matched one.  The unreachable case of an empty listing surviving the filter
is kept as the `NameError`/`IndexError` Python would raise. -/
def order_cancel (env : CancelEnv) (idStart : String) (skip_confirmation : Bool) :
    List Event × Option PyExc :=
  let order_ids := env.order_ids
  let possible_matches := order_ids.filter (fun oid => strStarts idStart oid)
  if possible_matches.isEmpty then ([.msgNoMatch], none)
  else if possible_matches.length > 1 then ([.msgTooShort], none)
  else
    match possible_matches[0]? with
    | none => ([], some .indexError)
    | some matched =>
      let o := env.lookup matched
      let ev0 : List Event := if o.message.isSome then [.printPayload] else []
      match parse_order o with
      | .error e => (ev0, some e)
      | .ok po =>
        let ev1 := ev0 ++ [Event.renderOrder po]
        if skip_confirmation then
          match order_ids.getLast? with
          | none => (ev1, some .nameError)
          | some order_id => (ev1 ++ [.cancelCall order_id], none)
        else
          let c := confirm "Cancel order?" env.response
          if c.2 then
            match order_ids.getLast? with
            | none => (ev1 ++ c.1, some .nameError)
            | some order_id => (ev1 ++ c.1 ++ [.cancelCall order_id], none)
          else (ev1 ++ c.1, none)

/-- A well-formed `get_order` response used in the C1 evaluation. -/
def cancelLookupA : String → GetOrderResult := fun oid =>
  { message := none
    record := some
      { id := oid, product_id := "BTC-USD", side := "buy", type := "limit",
        price := "10", size := "1", filled_size := "0", fill_fees := "0",
        status := "open", time_in_force := "GTC", settled := false, stp := "dc",
        created_at := "t" } }

/-! Helper lemmas shared by the claim theorems. -/

theorem PyFloat.blt_iff (a b : PyFloat) : a.blt b = true ↔ a.toRat < b.toRat := by
  have ha : (0 : ℚ) < (a.den : ℚ) := by exact_mod_cast a.den_pos
  have hb : (0 : ℚ) < (b.den : ℚ) := by exact_mod_cast b.den_pos
  rw [PyFloat.blt, PyFloat.toRat, PyFloat.toRat, div_lt_div_iff₀ ha hb]
  rw [decide_eq_true_iff]
  constructor
  · intro h
    exact_mod_cast h
  · intro h
    exact_mod_cast h

theorem PyFloat.ble_iff (a b : PyFloat) : a.ble b = true ↔ a.toRat ≤ b.toRat := by
  have ha : (0 : ℚ) < (a.den : ℚ) := by exact_mod_cast a.den_pos
  have hb : (0 : ℚ) < (b.den : ℚ) := by exact_mod_cast b.den_pos
  rw [PyFloat.ble, PyFloat.toRat, PyFloat.toRat, div_le_div_iff₀ ha hb]
  rw [decide_eq_true_iff]
  constructor
  · intro h
    exact_mod_cast h
  · intro h
    exact_mod_cast h

theorem pyCharUpper_idem (c : Char) : pyCharUpper (pyCharUpper c) = pyCharUpper c := by
  have hall : ∀ q ∈ upperPairs, pyCharUpper q.2 = q.2 := by decide
  cases hf : upperPairs.find? (fun p => p.1 = c) with
  | none =>
    have h1 : pyCharUpper c = c := by rw [pyCharUpper, hf]; rfl
    rw [h1]
    exact h1
  | some pr =>
    have h1 : pyCharUpper c = pr.2 := by rw [pyCharUpper, hf]; rfl
    rw [h1]
    exact hall pr (List.mem_of_find?_eq_some hf)

theorem pyUpper_idem (s : String) : pyUpper (pyUpper s) = pyUpper s := by
  show (⟨(s.data.map pyCharUpper).map pyCharUpper⟩ : String) = ⟨s.data.map pyCharUpper⟩
  congr 1
  rw [List.map_map]
  exact List.map_congr_left (fun c _ => pyCharUpper_idem c)

theorem pyFloat_eq_core (x : String) (q : PyFloat) (hx : pyFloatCore x.data = some q) :
    pyFloat x = some q := by
  rw [pyFloat]
  split
  · next cs heq =>
    rw [heq] at hx
    have hnone : pyFloatCore ('+' :: cs) = none := rfl
    rw [hnone] at hx
    exact Option.noConfusion hx
  · next cs heq =>
    rw [heq] at hx
    have hnone : pyFloatCore ('-' :: cs) = none := rfl
    rw [hnone] at hx
    exact Option.noConfusion hx
  · exact hx

theorem pyFloatCore_num_nonneg (cs : List Char) (q : PyFloat)
    (h : pyFloatCore cs = some q) : 0 ≤ q.num := by
  simp only [pyFloatCore] at h
  split at h
  · split at h
    · exact Option.noConfusion h
    · injection h with h'
      subst h'
      exact Int.natCast_nonneg _
  · split at h
    · injection h with h'
      subst h'
      exact Int.natCast_nonneg _
    · exact Option.noConfusion h
  · exact Option.noConfusion h

theorem pyFloatCore_toRat_nonneg (cs : List Char) (q : PyFloat)
    (h : pyFloatCore cs = some q) : 0 ≤ q.toRat := by
  apply div_nonneg
  · exact_mod_cast pyFloatCore_num_nonneg cs q h
  · positivity

theorem truncEnd_eq_none (d : Nat) (l : List Char) : truncEnd d l = none ↔ '.' ∉ l := by
  induction l with
  | nil => simp [truncEnd]
  | cons c cs ih =>
    rw [truncEnd]
    by_cases hc : c = '.'
    · subst hc
      simp
    · simp only [if_neg hc, Option.map_eq_none', ih, List.mem_cons]
      constructor
      · intro h hor
        rcases hor with h1 | h2
        · exact hc h1.symm
        · exact h h2
      · intro h hmem
        exact h (Or.inr hmem)

theorem truncEnd_eq_some (d : Nat) (l : List Char) (h : '.' ∈ l) :
    truncEnd d l = some (l.indexOf '.' + d + 1) := by
  induction l with
  | nil => exact absurd h (List.not_mem_nil _)
  | cons c cs ih =>
    rw [truncEnd]
    by_cases hc : c = '.'
    · subst hc
      rw [if_pos rfl, List.indexOf_cons_self]
      simp
    · have hmem : '.' ∈ cs := by
        rcases List.mem_cons.mp h with h1 | h2
        · exact absurd h1.symm hc
        · exact h2
      rw [if_neg hc, ih hmem, List.indexOf_cons_ne _ hc]
      simp only [Option.map_some']
      congr 1
      omega

/-- Claim C7 helper: `pyTruncate` always returns a literal initial segment
of its input. -/
theorem pyTruncate_prefix_of (s : String) (d : Nat) :
    ∃ t, s.data = (pyTruncate s d).data ++ t := by
  rw [pyTruncate]
  cases htr : truncEnd d s.data with
  | none => exact ⟨[], (List.append_nil _).symm⟩
  | some e => exact ⟨s.data.drop e, (List.take_append_drop e s.data).symm⟩

theorem check_valid_order_ok (product_ids : List String)
    (order_type side product size : String) (price : Option String)
    (hot : order_type ∈ (["market", "limit", "stop"] : List String))
    (hs : side ∈ (["buy", "sell"] : List String))
    (hp : pyUpper product ∈ product_ids)
    (hsz : (pyFloat size).isSome = true)
    (hpr : order_type = "market" ∨
      ∃ p c cs, price = some p ∧ p.data = c :: cs ∧ (c.isDigit || c = '-' || c = '+') = true) :
    check_valid_order product_ids order_type side product size price = .ok () := by
  obtain ⟨v, hv⟩ := Option.isSome_iff_exists.mp hsz
  rcases hpr with hm | ⟨p, c, cs, hpeq, hdata, hcond⟩
  · subst hm
    simp [check_valid_order.eq_def, hot, hs, hp, hv]
  · by_cases hm : order_type = "market"
    · subst hm
      simp [check_valid_order.eq_def, hot, hs, hp, hv]
    · simp [check_valid_order.eq_def, hot, hs, hp, hv, hpeq, hdata, hcond, hm]

theorem check_valid_order_error_ne (product_ids : List String)
    (order_type side product size : String) (price : Option String) (e : PyExc)
    (h : check_valid_order product_ids order_type side product size price = .error e) :
    e ≠ .invalidOrderError := by
  rw [check_valid_order.eq_def] at h
  repeat' split at h
  all_goals first
    | exact Except.noConfusion h
    | (injection h with h'; subst h'; decide)

theorem pyFloatE_error (s : String) (e : PyExc) (h : pyFloatE s = .error e) :
    e = .valueError := by
  rw [pyFloatE] at h
  split at h
  · injection h with h'
    exact h'.symm
  · exact Except.noConfusion h

theorem pyFloatOf_error (v : PyVal) (e : PyExc) (h : pyFloatOf v = .error e) :
    e = .valueError ∨ e = .typeError := by
  cases v with
  | pfloat q => exact Except.noConfusion h
  | pstr s => exact Or.inl (pyFloatE_error s e h)
  | pnone =>
    injection h with h'
    exact Or.inr h'.symm

theorem bal_error (accounts : List Account) (cur : String) (e : PyExc)
    (h : bal accounts cur = .error e) : e = .indexError ∨ e = .valueError := by
  rw [bal] at h
  split at h
  · injection h with h'
    exact Or.inl h'.symm
  · exact Or.inr (pyFloatE_error _ e h)

/-! Claim theorems. -/

/-- C5: for every price spec `p` whose first character is a digit and every
current price, `_parse_price` returns the pair of `p` truncated (not
rounded) to 2 fractional digits and the full un-truncated numeric value of
`p` minus the current price. -/
theorem parse_price_absolute (p : String) (cp q : PyFloat) (c : Char) (cs : List Char)
    (hp : p.data = c :: cs) (hc : c.isDigit = true) (hq : pyFloat p = some q) :
    parse_price p cp = .ok (pyTruncate p 2, q - cp) := by
  simp only [parse_price, hp, hc, hq, if_true]

/-- C5 witness: `_parse_price` at the absolute spec `"5"` with current price
3 resolves to `("5", 2)`. -/
theorem parse_price_absolute_witness :
    parse_price "5" ⟨3, 1, Nat.one_pos⟩ =
      .ok (pyTruncate "5" 2, (⟨5, 1, Nat.one_pos⟩ : PyFloat) - ⟨3, 1, Nat.one_pos⟩) :=
  parse_price_absolute "5" ⟨3, 1, Nat.one_pos⟩ ⟨5, 1, Nat.one_pos⟩ '5' []
    rfl (by decide) (by decide)

/-- C6: for every relative price spec, a sign character `'+'` or `'-'`
followed by an unsigned decimal numeral of value `q`, `_parse_price` returns
the offset `+q`/`-q` (matching the leading sign; `q` is nonnegative) and the
current price shifted by that offset, pushed through the 6-fractional-digit
fixed-point representation and truncated to 2 fractional digits. -/
theorem parse_price_relative (sign : Char) (x : String) (cp q : PyFloat)
    (hsign : sign = '+' ∨ sign = '-')
    (hx : pyFloatCore x.data = some q) :
    parse_price ⟨sign :: x.data⟩ cp =
      .ok (pyTruncate (formatFixed 6 (cp + (if sign = '-' then -q else q))) 2,
        (if sign = '-' then -q else q)) ∧ 0 ≤ q.toRat := by
  refine ⟨?_, pyFloatCore_toRat_nonneg x.data q hx⟩
  have hfl : pyFloat ⟨x.data⟩ = some q := pyFloat_eq_core x q hx
  rcases hsign with hsign | hsign
  · subst hsign
    simp only [parse_price, hfl]
    rfl
  · subst hsign
    simp only [parse_price, hfl]
    rfl

/-- C6 witness: `_parse_price` at the relative spec `"+5"` with current
price 50 resolves to `("55.00", 5)` with a nonnegative parsed amount. -/
theorem parse_price_relative_witness :
    parse_price "+5" ⟨50, 1, Nat.one_pos⟩ =
      .ok (pyTruncate (formatFixed 6 ((⟨50, 1, Nat.one_pos⟩ : PyFloat) +
          (⟨5, 1, Nat.one_pos⟩ : PyFloat))) 2, (⟨5, 1, Nat.one_pos⟩ : PyFloat))
      ∧ pyTruncate (formatFixed 6 ((⟨50, 1, Nat.one_pos⟩ : PyFloat) +
          (⟨5, 1, Nat.one_pos⟩ : PyFloat))) 2 = "55.00" := by
  have h := parse_price_relative '+' "5" ⟨50, 1, Nat.one_pos⟩ ⟨5, 1, Nat.one_pos⟩
    (Or.inl rfl) (by decide)
  exact ⟨h.1, by decide⟩

/-- C7: `_truncate` returns a literal initial segment of its input (so it
never rounds up and never alters a digit): with a dot present everything
beyond `digits` characters after the first dot is discarded, without a dot
the string is unchanged, and in particular `0.1111115` truncated to 4
fractional digits is `0.1111`, not `0.1112`. -/
theorem truncate_never_rounds (s : String) (d : Nat) :
    (∃ t, s.data = (pyTruncate s d).data ++ t)
    ∧ ('.' ∈ s.data → (pyTruncate s d).data = s.data.take (s.data.indexOf '.' + d + 1))
    ∧ ('.' ∉ s.data → pyTruncate s d = s)
    ∧ pyTruncate "0.1111115" 4 = "0.1111" := by
  refine ⟨pyTruncate_prefix_of s d, ?_, ?_, by decide⟩
  · intro hdot
    rw [pyTruncate, truncEnd_eq_some d s.data hdot]
  · intro hdot
    rw [pyTruncate, (truncEnd_eq_none d s.data).mpr hdot]

/-- C7 witness: the truncation claims evaluated at `"0.1111115"` with 4
digits: the output is the prefix cut 6 characters in, and equals
`"0.1111"`. -/
theorem truncate_never_rounds_witness :
    (pyTruncate "0.1111115" 4).data = ("0.1111115").data.take (("0.1111115").data.indexOf '.' + 4 + 1)
    ∧ pyTruncate "0.1111115" 4 = "0.1111" :=
  ⟨(truncate_never_rounds "0.1111115" 4).2.1 (by decide),
   (truncate_never_rounds "0.1111115" 4).2.2.2⟩

/-- C3 counterexample: an invalid order type makes `_check_valid_order`
raise `AssertionError`, not `InvalidOrderError`, both standalone and through
the `order` pipeline (where it still precedes any submission: the trace is
empty). -/
theorem check_valid_order_raises_assertion_cex :
    check_valid_order ["BTC-USD"] "bogus" "buy" "BTC-USD" "1" none = .error .assertionError
    ∧ order ⟨["BTC-USD"], ⟨100, 1, Nat.one_pos⟩, [], ""⟩ "bogus" "buy" "BTC-USD" "1" none false
        = ([], some .assertionError)
    ∧ (Except.error PyExc.assertionError : Except PyExc Unit) ≠ .error .invalidOrderError := by
  exact ⟨by decide, by decide, by decide⟩

/-- C3 amended: an order request violating any validation constraint (bad
order type, bad side, product matching no tradable identifier even up to
case, unparseable size, or a non-market price spec whose first character is
not a digit, `+` or `-`) makes `order` raise an exception — though not
`InvalidOrderError` — before any submission (the event trace is empty). -/
theorem order_invalid_rejected (env : OrderEnv) (order_type side product0 size : String)
    (price : Option String) (skip : Bool)
    (hviol : order_type ∉ (["market", "limit", "stop"] : List String)
      ∨ side ∉ (["buy", "sell"] : List String)
      ∨ (∀ pid ∈ env.product_ids, pyUpper product0 ≠ pyUpper pid)
      ∨ pyFloat size = none
      ∨ (order_type ≠ "market" ∧ ∃ p c cs, price = some p ∧ p.data = c :: cs
          ∧ c.isDigit = false ∧ c ≠ '-' ∧ c ≠ '+')) :
    ∃ e, order env order_type side product0 size price skip = ([], some e)
      ∧ e ≠ PyExc.invalidOrderError := by
  have hcheck : ∃ e, check_valid_order env.product_ids order_type side
      (pyUpper product0) size price = .error e := by
    by_cases h1 : order_type ∈ (["market", "limit", "stop"] : List String)
    · by_cases h2 : side ∈ (["buy", "sell"] : List String)
      · by_cases h3 : pyUpper (pyUpper product0) ∈ env.product_ids
        · cases hsz : pyFloat size with
          | none => exact ⟨.valueError, by simp [check_valid_order.eq_def, h1, h2, h3, hsz]⟩
          | some v =>
            have hpr : order_type ≠ "market" ∧ ∃ p c cs, price = some p ∧ p.data = c :: cs
                ∧ c.isDigit = false ∧ c ≠ '-' ∧ c ≠ '+' := by
              rcases hviol with h | h | h | h | h
              · exact absurd h1 h
              · exact absurd h2 h
              · rw [pyUpper_idem] at h3
                exact absurd (pyUpper_idem product0).symm (h _ h3)
              · rw [h] at hsz
                exact Option.noConfusion hsz
              · exact h
            obtain ⟨hm, p, c, cs, hpeq, hdata, hd, hminus, hplus⟩ := hpr
            exact ⟨.assertionError,
              by simp [check_valid_order.eq_def, h1, h2, h3, hsz, hm, hpeq, hdata, hd,
                hminus, hplus]⟩
        · exact ⟨.assertionError, by simp [check_valid_order.eq_def, h1, h2, h3]⟩
      · exact ⟨.assertionError, by simp [check_valid_order.eq_def, h1, h2]⟩
    · exact ⟨.assertionError, by simp [check_valid_order.eq_def, h1]⟩
  obtain ⟨e, he⟩ := hcheck
  refine ⟨e, ?_, check_valid_order_error_ne _ _ _ _ _ _ e he⟩
  simp only [order, he]

/-- C3 amended witness: the pipeline at the invalid order type `"bogus"`
raises some exception other than `InvalidOrderError` with an empty trace. -/
theorem order_invalid_rejected_witness :
    ∃ e, order ⟨["BTC-USD"], ⟨100, 1, Nat.one_pos⟩, [], ""⟩ "bogus" "buy" "BTC-USD" "1"
        none false = ([], some e) ∧ e ≠ PyExc.invalidOrderError :=
  order_invalid_rejected ⟨["BTC-USD"], ⟨100, 1, Nat.one_pos⟩, [], ""⟩ "bogus" "buy"
    "BTC-USD" "1" none false (Or.inl (by decide))

theorem PyFloat.toRat_zero : (0 : PyFloat).toRat = 0 := by
  show ((0 : Int) : ℚ) / ((1 : Nat) : ℚ) = 0
  norm_num

/-- Once validation and the order-type branch have both succeeded, no later
stage of `Client.order` can raise `InvalidOrderError`: the only remaining
exceptions are parse (`ValueError`/`TypeError`) and lookup (`IndexError`)
failures, and every fully-run path ends without an exception. -/
theorem order_ne_invalid_of_branch_ok (env : OrderEnv)
    (order_type side product0 size : String) (price : Option String) (skip : Bool)
    (priceV : PyVal) (absOpt : Option String)
    (hval : check_valid_order env.product_ids order_type side (pyUpper product0) size price
      = .ok ())
    (hbr : orderPriceBranch env.current_price order_type side price = .ok (priceV, absOpt)) :
    ∀ evs, order env order_type side product0 size price skip
      ≠ (evs, some PyExc.invalidOrderError) := by
  intro evs h
  simp only [order, hval, hbr] at h
  cases hsz : pyFloatE size with
  | error e =>
    simp only [hsz] at h
    have he : e = .invalidOrderError := by simpa using congrArg Prod.snd h
    have hv := pyFloatE_error size e hsz
    rw [he] at hv
    exact absurd hv (by decide)
  | ok szq =>
    simp only [hsz] at h
    cases hpq : pyFloatOf priceV with
    | error e =>
      simp only [hpq] at h
      have he : e = .invalidOrderError := by simpa using congrArg Prod.snd h
      rcases pyFloatOf_error priceV e hpq with hv | hv <;>
        (rw [he] at hv; exact absurd hv (by decide))
    | ok prq =>
      simp only [hpq] at h
      cases hden : (pySplit '-' (pyUpper product0))[if side = "buy" then 1 else 0]? with
      | none =>
        simp only [hden] at h
        have he := congrArg Prod.snd h
        simp at he
      | some den =>
        simp only [hden] at h
        cases hbal : bal env.accounts den with
        | error e =>
          simp only [hbal] at h
          have he : e = .invalidOrderError := by simpa using congrArg Prod.snd h
          rcases bal_error _ _ _ hbal with hv | hv <;>
            (rw [he] at hv; exact absurd hv (by decide))
        | ok dbal =>
          simp only [hbal] at h
          by_cases hf :
              pyLt dbal (if side = "buy" then PyVal.pfloat (szq * prq) else PyVal.pstr size)
              = true
          · rw [if_pos hf] at h
            simpa using congrArg Prod.snd h
          · rw [if_neg hf] at h
            cases skip with
            | true =>
              rw [if_pos rfl] at h
              simpa using congrArg Prod.snd h
            | false =>
              rw [if_neg (by simp)] at h
              by_cases hc2 : (confirm "Proceed?" env.response).2 = true
              · rw [if_pos hc2] at h
                simpa using congrArg Prod.snd h
              · rw [if_neg hc2] at h
                simpa using congrArg Prod.snd h

/-- C4: for a validated limit order, a buy whose resolved offset from the
current price is nonnegative (zero included) raises `InvalidOrderError` with
no submission (empty trace), a sell whose offset is nonpositive (zero
included) does the same, and a buy with strictly negative offset or a sell
with strictly positive offset never raises `InvalidOrderError`. -/
theorem order_limit_price_guard (env : OrderEnv) (product0 size p a : String) (off : PyFloat)
    (skip : Bool)
    (hprod : pyUpper product0 ∈ env.product_ids)
    (hsz : (pyFloat size).isSome = true)
    (hhead : ∃ c cs, p.data = c :: cs ∧ (c.isDigit || c = '-' || c = '+') = true)
    (hparse : parse_price p env.current_price = .ok (a, off)) :
    (0 ≤ off.toRat →
      order env "limit" "buy" product0 size (some p) skip = ([], some .invalidOrderError))
    ∧ (off.toRat ≤ 0 →
      order env "limit" "sell" product0 size (some p) skip = ([], some .invalidOrderError))
    ∧ (off.toRat < 0 → ∀ evs,
      order env "limit" "buy" product0 size (some p) skip ≠ (evs, some .invalidOrderError))
    ∧ (0 < off.toRat → ∀ evs,
      order env "limit" "sell" product0 size (some p) skip ≠ (evs, some .invalidOrderError)) := by
  obtain ⟨c, cs, hdata, hcond⟩ := hhead
  have hup : pyUpper (pyUpper product0) ∈ env.product_ids := by
    rw [pyUpper_idem]
    exact hprod
  have hvalb : check_valid_order env.product_ids "limit" "buy" (pyUpper product0) size (some p)
      = .ok () :=
    check_valid_order_ok _ _ _ _ _ _ (by decide) (by decide) hup hsz
      (Or.inr ⟨p, c, cs, rfl, hdata, hcond⟩)
  have hvals : check_valid_order env.product_ids "limit" "sell" (pyUpper product0) size (some p)
      = .ok () :=
    check_valid_order_ok _ _ _ _ _ _ (by decide) (by decide) hup hsz
      (Or.inr ⟨p, c, cs, rfl, hdata, hcond⟩)
  refine ⟨?_, ?_, ?_, ?_⟩
  · intro h
    have hb : PyFloat.ble 0 off = true := by
      rw [PyFloat.ble_iff, PyFloat.toRat_zero]
      exact h
    have hbr : orderPriceBranch env.current_price "limit" "buy" (some p)
        = .error .invalidOrderError := by
      simp only [orderPriceBranch, hparse]
      simp [hb]
    simp only [order, hvalb, hbr]
  · intro h
    have hb : PyFloat.ble off 0 = true := by
      rw [PyFloat.ble_iff, PyFloat.toRat_zero]
      exact h
    have hbr : orderPriceBranch env.current_price "limit" "sell" (some p)
        = .error .invalidOrderError := by
      simp only [orderPriceBranch, hparse]
      simp [hb]
    simp only [order, hvals, hbr]
  · intro h
    have hb : PyFloat.ble 0 off = false := by
      rw [Bool.eq_false_iff]
      intro hc
      rw [PyFloat.ble_iff, PyFloat.toRat_zero] at hc
      exact absurd hc (not_le.mpr h)
    have hbr : orderPriceBranch env.current_price "limit" "buy" (some p)
        = .ok (.pstr a, some a) := by
      simp only [orderPriceBranch, hparse]
      simp [hb]
    exact order_ne_invalid_of_branch_ok env "limit" "buy" product0 size (some p) skip
      _ _ hvalb hbr
  · intro h
    have hb : PyFloat.ble off 0 = false := by
      rw [Bool.eq_false_iff]
      intro hc
      rw [PyFloat.ble_iff, PyFloat.toRat_zero] at hc
      exact absurd hc (not_le.mpr h)
    have hbr : orderPriceBranch env.current_price "limit" "sell" (some p)
        = .ok (.pstr a, some a) := by
      simp only [orderPriceBranch, hparse]
      simp [hb]
    exact order_ne_invalid_of_branch_ok env "limit" "sell" product0 size (some p) skip
      _ _ hvals hbr

/-- C4 witness: a limit buy at `"+5"` over current price 100 (offset 5 ≥ 0)
is rejected with `InvalidOrderError` and an empty trace. -/
theorem order_limit_price_guard_witness :
    order ⟨["BTC-USD"], ⟨100, 1, Nat.one_pos⟩, [⟨"USD", "1000"⟩], "y"⟩ "limit" "buy"
      "BTC-USD" "1" (some "+5") false = ([], some .invalidOrderError) :=
  (order_limit_price_guard ⟨["BTC-USD"], ⟨100, 1, Nat.one_pos⟩, [⟨"USD", "1000"⟩], "y"⟩
    "BTC-USD" "1" "+5" "105.00" ⟨5, 1, Nat.one_pos⟩ false (by decide) (by decide)
    ⟨'+', ['5'], rfl, by decide⟩ (by decide)).1
    (by rw [← PyFloat.toRat_zero]
        exact le_of_lt ((PyFloat.blt_iff 0 ⟨5, 1, Nat.one_pos⟩).mp (by decide)))

/-- C2: for a validated order past the limit-price guards, the funds
requirement of a buy is the total notional `size * price` checked against
the available balance of the quote currency (index 1 of the dash-split
product) and that of a sell is the size checked against the base currency
(index 0); whenever the available balance is below the requirement, `order`
prints the not-enough-funds message and returns normally — no submission
call, no exception.  (For sells the CPython 2 comparison `float < str` makes
the abort unconditional, so the claimed direction holds a fortiori.) -/
theorem order_insufficient_funds (env : OrderEnv) (order_type side product0 size : String)
    (price : Option String) (skip : Bool) (priceV : PyVal) (absOpt : Option String)
    (szq prq dbal : PyFloat) (den : String)
    (hside : side = "buy" ∨ side = "sell")
    (hval : check_valid_order env.product_ids order_type side (pyUpper product0) size price
      = .ok ())
    (hbr : orderPriceBranch env.current_price order_type side price = .ok (priceV, absOpt))
    (hsz : pyFloatE size = .ok szq)
    (hpr : pyFloatOf priceV = .ok prq)
    (hden : (pySplit '-' (pyUpper product0))[if side = "buy" then 1 else 0]? = some den)
    (hbal : bal env.accounts den = .ok dbal)
    (hlt : dbal.toRat < (if side = "buy" then (szq * prq).toRat else szq.toRat)) :
    order env order_type side product0 size price skip =
      ([Event.msgNotEnoughFunds (if side = "buy" then .pfloat (szq * prq) else .pstr size)
        den dbal], none) := by
  have hfunds : pyLt dbal
      (if side = "buy" then PyVal.pfloat (szq * prq) else PyVal.pstr size) = true := by
    rcases hside with hs | hs
    · subst hs
      show PyFloat.blt dbal (szq * prq) = true
      rw [PyFloat.blt_iff]
      simpa using hlt
    · subst hs
      rfl
  simp only [order, hval, hbr, hsz, hpr, hden, hbal, hfunds, if_true]

/-- C2 witness: a market buy of size 1 at price 100 with only 5 quote units
available aborts with the message and no submission. -/
theorem order_insufficient_funds_witness :
    order ⟨["BTC-USD"], ⟨100, 1, Nat.one_pos⟩, [⟨"USD", "5"⟩], "y"⟩ "market" "buy" "BTC-USD"
      "1" none false =
      ([Event.msgNotEnoughFunds
        (.pfloat ((⟨1, 1, Nat.one_pos⟩ : PyFloat) * ⟨100, 1, Nat.one_pos⟩)) "USD"
        ⟨5, 1, Nat.one_pos⟩], none) := by
  have hlt : (⟨5, 1, Nat.one_pos⟩ : PyFloat).toRat <
      (if "buy" = "buy" then ((⟨1, 1, Nat.one_pos⟩ : PyFloat) * ⟨100, 1, Nat.one_pos⟩).toRat
       else (⟨1, 1, Nat.one_pos⟩ : PyFloat).toRat) := by
    rw [if_pos rfl]
    exact (PyFloat.blt_iff _ _).mp (by decide)
  have h := order_insufficient_funds ⟨["BTC-USD"], ⟨100, 1, Nat.one_pos⟩, [⟨"USD", "5"⟩], "y"⟩
    "market" "buy" "BTC-USD" "1" none false (.pfloat ⟨100, 1, Nat.one_pos⟩) none
    ⟨1, 1, Nat.one_pos⟩ ⟨100, 1, Nat.one_pos⟩ ⟨5, 1, Nat.one_pos⟩ "USD"
    (Or.inl rfl) (by decide) (by decide) (by decide) (by decide) (by decide) (by decide) hlt
  simpa using h

/-- C9: for a validated market order with sufficient funds, the resolved
price is the current ticker price, the total is `size * current_price`, and
the submission kwargs carry product, type, side and size with no price
entry. -/
theorem order_market_submission (env : OrderEnv) (side product0 size : String)
    (szq dbal : PyFloat) (den : String)
    (hval : check_valid_order env.product_ids "market" side (pyUpper product0) size none
      = .ok ())
    (hsz : pyFloatE size = .ok szq)
    (hden : (pySplit '-' (pyUpper product0))[if side = "buy" then 1 else 0]? = some den)
    (hbal : bal env.accounts den = .ok dbal)
    (hfunds : pyLt dbal
      (if side = "buy" then .pfloat (szq * env.current_price) else .pstr size) = false) :
    order env "market" side product0 size none true =
      ([Event.msgPlacing "market" side size (pyUpper product0) (.pfloat env.current_price)
          (szq * env.current_price),
        submitEvent side ⟨pyUpper product0, "market", side, size, none⟩], none) := by
  have hbr : orderPriceBranch env.current_price "market" side none
      = .ok (.pfloat env.current_price, none) := rfl
  have hpr : pyFloatOf (.pfloat env.current_price) = .ok env.current_price := rfl
  simp only [order, hval, hbr, hsz, hpr, hden, hbal, hfunds]
  simp

/-- C9 witness: `place(market, buy, BTC-USD, "1", None)` with ticker price
100 totals `1 * 100` (value 100), and invokes the buy submission with
size `"1"` and no price entry in the kwargs. -/
theorem order_market_submission_witness :
    order ⟨["BTC-USD"], ⟨100, 1, Nat.one_pos⟩, [⟨"USD", "1000"⟩], ""⟩ "market" "buy"
      "BTC-USD" "1" none true =
      ([Event.msgPlacing "market" "buy" "1" "BTC-USD" (.pfloat ⟨100, 1, Nat.one_pos⟩)
          ((⟨1, 1, Nat.one_pos⟩ : PyFloat) * ⟨100, 1, Nat.one_pos⟩),
        Event.buyCall ⟨"BTC-USD", "market", "buy", "1", none⟩], none)
    ∧ ((⟨1, 1, Nat.one_pos⟩ : PyFloat) * ⟨100, 1, Nat.one_pos⟩ : PyFloat).toRat = 100 := by
  have h := order_market_submission ⟨["BTC-USD"], ⟨100, 1, Nat.one_pos⟩, [⟨"USD", "1000"⟩], ""⟩
    "buy" "BTC-USD" "1" ⟨1, 1, Nat.one_pos⟩ ⟨1000, 1, Nat.one_pos⟩ "USD"
    (by decide) (by decide) (by decide) (by decide) (by decide)
  constructor
  · simpa [submitEvent] using h
  · show ((1 * 100 : Int) : ℚ) / ((1 * 1 : Nat) : ℚ) = 100
    simp

theorem isSubmit_submitEvent (side : String) (k : Kwargs) :
    isSubmit (submitEvent side k) = true := by
  rw [submitEvent]
  split <;> rfl

/-- C8: a validated, funded order placed with `skip_confirmation = False`
prompts the operator; a buy/sell submission appears in the trace exactly
when the response is `y` or `Y`; and on any other response — the empty
string included — the trace records the did-nothing message, contains no
submission call, and the call returns without an exception. -/
theorem order_confirmation_gate (env : OrderEnv) (order_type side product0 size : String)
    (price : Option String) (priceV : PyVal) (absOpt : Option String)
    (szq prq dbal : PyFloat) (den : String)
    (hval : check_valid_order env.product_ids order_type side (pyUpper product0) size price
      = .ok ())
    (hbr : orderPriceBranch env.current_price order_type side price = .ok (priceV, absOpt))
    (hsz : pyFloatE size = .ok szq)
    (hpr : pyFloatOf priceV = .ok prq)
    (hden : (pySplit '-' (pyUpper product0))[if side = "buy" then 1 else 0]? = some den)
    (hbal : bal env.accounts den = .ok dbal)
    (hfunds : pyLt dbal
      (if side = "buy" then .pfloat (szq * prq) else .pstr size) = false) :
    Event.prompt "Proceed?" ∈ (order env order_type side product0 size price false).1
    ∧ ((order env order_type side product0 size price false).1.any isSubmit = true
        ↔ (env.response = "y" ∨ env.response = "Y"))
    ∧ (env.response ≠ "y" → env.response ≠ "Y" →
        Event.msgDidNothing ∈ (order env order_type side product0 size price false).1
        ∧ (order env order_type side product0 size price false).1.all
            (fun e => !isSubmit e) = true
        ∧ (order env order_type side product0 size price false).2 = none) := by
  have key : order env order_type side product0 size price false =
      (Event.msgPlacing order_type side size (pyUpper product0) priceV (szq * prq) ::
        Event.prompt "Proceed?" ::
        (if env.response = "" then [Event.msgEnterYorY] else []) ++
        (if (env.response = "y" || env.response = "Y") = true
          then [submitEvent side ⟨pyUpper product0, order_type, side, size, absOpt⟩]
          else [Event.msgDidNothing]), none) := by
    simp only [order, hval, hbr, hsz, hpr, hden, hbal, hfunds, confirm]
    by_cases hc : (env.response = "y" || env.response = "Y") = true
    · simp [hc]
    · simp [hc]
  refine ⟨?_, ?_, ?_⟩
  · rw [key]
    simp
  · rw [key]
    by_cases hc : (env.response = "y" || env.response = "Y") = true
    · have hyY : env.response = "y" ∨ env.response = "Y" := by simpa using hc
      simp [hc, isSubmit_submitEvent, hyY]
    · have hyY : ¬(env.response = "y" ∨ env.response = "Y") := by simpa using hc
      by_cases he : env.response = ""
      · simp [hc, he, isSubmit, hyY]
      · simp [hc, he, isSubmit, hyY]
  · intro hy hY
    have hc : (env.response = "y" || env.response = "Y") = true ↔ False := by
      simp [hy, hY]
    rw [key]
    by_cases he : env.response = ""
    · simp [hc, he, isSubmit]
    · simp [hc, he, isSubmit]

/-- C8 witness: the gate at the empty response records the did-nothing
message, makes no submission, and returns normally. -/
theorem order_confirmation_gate_witness :
    Event.msgDidNothing ∈ (order ⟨["BTC-USD"], ⟨100, 1, Nat.one_pos⟩, [⟨"USD", "1000"⟩], ""⟩
        "market" "buy" "BTC-USD" "1" none false).1
    ∧ (order ⟨["BTC-USD"], ⟨100, 1, Nat.one_pos⟩, [⟨"USD", "1000"⟩], ""⟩
        "market" "buy" "BTC-USD" "1" none false).1.all (fun e => !isSubmit e) = true
    ∧ (order ⟨["BTC-USD"], ⟨100, 1, Nat.one_pos⟩, [⟨"USD", "1000"⟩], ""⟩
        "market" "buy" "BTC-USD" "1" none false).2 = none :=
  (order_confirmation_gate ⟨["BTC-USD"], ⟨100, 1, Nat.one_pos⟩, [⟨"USD", "1000"⟩], ""⟩
    "market" "buy" "BTC-USD" "1" none (.pfloat ⟨100, 1, Nat.one_pos⟩) none
    ⟨1, 1, Nat.one_pos⟩ ⟨100, 1, Nat.one_pos⟩ ⟨1000, 1, Nat.one_pos⟩ "USD"
    (by decide) (by decide) (by decide) (by decide) (by decide) (by decide)
    (by decide)).2.2 (by decide) (by decide)

/-- C1 evaluated: the zero-match and multi-match paths print their messages
and make no cancellation call, and on the unique-match path the order
`aaa111xyz` is the one matched and rendered — yet the cancellation call is
made with `bbb222xyz`, the LAST identifier of the listing (the leaked loop
variable), not the matched one.  This is the code bug behind claim C1. -/
theorem order_cancel_cancels_wrong_order :
    (["aaa111xyz", "bbb222xyz"].filter (fun oid => strStarts "aa" oid) = ["aaa111xyz"])
    ∧ order_cancel ⟨["aaa111xyz", "bbb222xyz"], cancelLookupA, "y"⟩ "aa" true =
        ([Event.renderOrder
            ⟨"aaa111", "BTC-USD", "buy", "limit", ⟨10, 1, Nat.one_pos⟩, ⟨1, 1, Nat.one_pos⟩,
              ⟨10, 1, Nat.one_pos⟩, "0", .pfloat ⟨0, 1, Nat.one_pos⟩, "open", "GTC",
              "no", "dc", "t"⟩,
          Event.cancelCall "bbb222xyz"], none)
    ∧ order_cancel ⟨["aaa111xyz", "bbb222xyz"], cancelLookupA, "y"⟩ "zz" true
        = ([Event.msgNoMatch], none)
    ∧ order_cancel ⟨["aaa111xyz", "aab222xyz"], cancelLookupA, "y"⟩ "aa" true
        = ([Event.msgTooShort], none) :=
  ⟨by decide, by decide, by decide, by decide⟩

/-- C10 counterexample: with a pure error payload (a dict holding only a
`message` key) from the unique-match lookup, `order_cancel` prints the
payload and then raises `KeyError` inside `_parse_order`: no record is
rendered and neither the confirmation gate nor any cancellation call is
reached, contrary to the claim that control continues to them. -/
theorem order_cancel_error_payload_cex :
    order_cancel ⟨["ord42"], fun _ => ⟨some "NotFound", none⟩, "y"⟩ "or" true
      = ([Event.printPayload], some PyExc.keyError) := by decide

/-- C10 amended: when the unique-match lookup result carries a `message`
key, the payload is printed and the check does not return early; control
falls through to the record-rendering step.  If the payload lacks the order
fields, rendering raises `KeyError` so the gate and the cancellation are
never reached; if the full record is present (`_parse_order` succeeds), the
record is rendered and control continues to the cancellation call. -/
theorem order_cancel_error_payload (ids : List String) (lookup : String → GetOrderResult)
    (response idStart m last : String) (po : ParsedOrder)
    (hm : ids.filter (fun oid => strStarts idStart oid) = [m])
    (hmsg : (lookup m).message.isSome = true) :
    Event.printPayload ∈ (order_cancel ⟨ids, lookup, response⟩ idStart true).1
    ∧ ((lookup m).record = none →
        order_cancel ⟨ids, lookup, response⟩ idStart true
          = ([.printPayload], some .keyError))
    ∧ (parse_order (lookup m) = .ok po → ids.getLast? = some last →
        order_cancel ⟨ids, lookup, response⟩ idStart true
          = ([.printPayload, .renderOrder po, .cancelCall last], none)) := by
  cases hpo : parse_order (lookup m) with
  | error e =>
    have key : order_cancel ⟨ids, lookup, response⟩ idStart true
        = ([Event.printPayload], some e) := by
      simp [order_cancel, hm, hmsg, hpo]
    refine ⟨?_, ?_, ?_⟩
    · rw [key]
      simp
    · intro hrec
      have hke : parse_order (lookup m) = .error .keyError := by
        simp [parse_order, hrec]
      rw [hpo] at hke
      injection hke with hke'
      rw [key, hke']
    · intro hpo2 _
      exact Except.noConfusion hpo2
  | ok po' =>
    refine ⟨?_, ?_, ?_⟩
    · cases hlast : ids.getLast? <;> simp [order_cancel, hm, hmsg, hpo, hlast]
    · intro hrec
      have hke : parse_order (lookup m) = .error .keyError := by
        simp [parse_order, hrec]
      rw [hpo] at hke
      exact Except.noConfusion hke
    · intro hpo2 hlast
      injection hpo2 with hpo2'
      subst hpo2'
      simp [order_cancel, hm, hmsg, hpo, hlast]

/-- C10 amended witness: the pure error payload case evaluated on one open
order. -/
theorem order_cancel_error_payload_witness :
    order_cancel ⟨["aaa111"], fun _ => ⟨some "NotFound", none⟩, "y"⟩ "aa" true
      = ([Event.printPayload], some PyExc.keyError) :=
  (order_cancel_error_payload ["aaa111"] (fun _ => ⟨some "NotFound", none⟩) "y" "aa"
    "aaa111" "aaa111" ⟨"", "", "", "", 0, 0, 0, "", .pnone, "", "", "", "", ""⟩
    (by decide) rfl).2.1 rfl

example : pyTruncate "0.1111115" 4 = "0.1111" := by decide
example : pyFloat "123.456" = some ⟨123456, 1000, by decide⟩ := by decide
example : pyFloat "-3.5" = some ⟨-35, 10, by decide⟩ := by decide
example : pyFloat "" = none := by decide
example : pyFloat "5e5" = none := by decide
example : formatFixed 6 ⟨105, 1, by decide⟩ = "105.000000" := by decide
example : formatFixed 2 ⟨-125, 100, by decide⟩ = "-1.25" := by decide
example : pyUpper "btc-Usd" = "BTC-USD" := by decide
